import Mathlib

/-!
Verification of the Due/Payment Ledger of the profstudenthub repository.

Embedding conventions:
* Money is in integer minor units (paisa), modelled as `Int` (the DB columns
  are `INTEGER` with no check constraints, so negative values are not ruled
  out by the schema; spec invariants appear as hypotheses where needed).
* A calendar date (`DATE` column, the argument of the SQL functions) is a
  day index `Nat`; only order and equality of dates are used by the code,
  so any order-preserving encoding is faithful.
* A JS timestamp (`new Date()`) is a `Nat` counting minutes since the epoch;
  `new Date(dateString)` for a date-only string is midnight of that day,
  i.e. `day * 1440`; the calendar date of a timestamp is `t / 1440`.
* `late_fee_percentage` is `DECIMAL(5,2)`, modelled as `Rat`; SQL numeric
  arithmetic is exact, and `FLOOR` / `Math.floor` is `Int.floor`.
* Row ids (`UUID`) are modelled as `Nat`.
-/

namespace ProfStudentHub

/-- The `payment_status` enum of the `student_dues` table. -/
inductive DueStatus where
  | pending
  | paid
  | overdue
  | failed
deriving DecidableEq, Repr

/-- A row of `public.student_dues` (the fields the ledger logic reads or
writes; `subject_id`, `description`, `created_at` are never inspected by the
fee/status code and are omitted). -/
structure Due where
  id : Nat
  student_id : Nat
  amount : Int
  due_date : Nat
  late_fee_percentage : Rat
  status : DueStatus
  updated_at : Nat
deriving DecidableEq, Repr

/-- A row of `public.payments` (the fields the ledger logic reads). -/
structure Payment where
  student_id : Nat
  due_id : Nat
  amount : Int
  paid_at : Nat
deriving DecidableEq, Repr

/-- The durable store: the `student_dues` and `payments` tables. -/
structure LedgerState where
  dues : List Due
  payments : List Payment
deriving DecidableEq, Repr

/-- Minutes in a day; `new Date(dateString)` for a date-only string denotes
midnight of that calendar day, i.e. `day * minutesPerDay`. -/
def minutesPerDay : Nat := 1440

/-- The calendar date (day index) of a timestamp. -/
def dayOfTs (t : Nat) : Nat := t / minutesPerDay

/-- SQL `public.calculate_late_fee(due_amount, due_date, late_fee_percentage)`:
`IF CURRENT_DATE > due_date THEN RETURN FLOOR(due_amount * (late_fee_percentage / 100)); END IF; RETURN 0;`
with the ambient `CURRENT_DATE` made an explicit argument `current_date`. -/
def calculate_late_fee (due_amount : Int) (due_date : Nat) (late_fee_percentage : Rat)
    (current_date : Nat) : Int :=
  if due_date < current_date then
    Int.floor ((due_amount : Rat) * (late_fee_percentage / 100))
  else 0

/-- The total owed by a due as computed inside the SQL trigger
`update_due_status`: `amount + public.calculate_late_fee(amount, due_date, late_fee_percentage)`. -/
def totalOwedSql (d : Due) (current_date : Nat) : Int :=
  d.amount + calculate_late_fee d.amount d.due_date d.late_fee_percentage current_date

/-- `SELECT COALESCE(SUM(amount), 0) FROM public.payments WHERE due_id = i`. -/
def paidSum (payments : List Payment) (i : Nat) : Int :=
  ((payments.filter (fun p => p.due_id == i)).map Payment.amount).sum

/-- The `IF` condition of the SQL trigger `update_due_status`: the payment sum
for the due reaches the due's amount plus late fee.  A scalar subquery over a
missing due row yields SQL `NULL`, and `NULL >= x` is not true, so a missing
due row makes the condition false. -/
def dueOwedCheck (dues : List Due) (payments : List Payment) (i : Nat)
    (current_date : Nat) : Bool :=
  match dues.find? (fun d => d.id == i) with
  | some d => totalOwedSql d current_date ≤ paidSum payments i
  | none => false

/-- The row action of `UPDATE public.student_dues SET status = 'paid', updated_at = now() WHERE id = i`. -/
def setPaidRow (i : Nat) (now : Nat) (d : Due) : Due :=
  if d.id == i then { d with status := DueStatus.paid, updated_at := now } else d

/-- SQL trigger function `public.update_due_status()`, fired `AFTER INSERT ON
public.payments`: if the summed payments for `NEW.due_id = i` reach the due's
amount plus late fee, set that due's status to `paid` (and bump `updated_at`);
otherwise do nothing. `payments` already contains the `NEW` row. -/
def update_due_status (dues : List Due) (payments : List Payment) (i : Nat)
    (current_date now : Nat) : List Due :=
  if dueOwedCheck dues payments i current_date then
    dues.map (setPaidRow i now)
  else dues

/-- The row action of SQL `public.mark_overdue_payments()`:
`UPDATE ... SET status = 'overdue', updated_at = now() WHERE due_date < CURRENT_DATE AND status = 'pending'`. -/
def sweepDue (asOf now : Nat) (d : Due) : Due :=
  if d.due_date < asOf ∧ d.status = DueStatus.pending then
    { d with status := DueStatus.overdue, updated_at := now }
  else d

/-- SQL `public.mark_overdue_payments()` over the whole `student_dues` table,
with the ambient `CURRENT_DATE` made the explicit argument `asOf`. -/
def mark_overdue_payments (asOf now : Nat) (dues : List Due) : List Due :=
  dues.map (sweepDue asOf now)

/-- TS `calculateLateFee(amount, dueDate, lateFeePercentage)` from
`src/lib/payment-utils.ts`: `new Date(dueDate)` is midnight of the due day,
`new Date()` is the ambient current instant, made the explicit argument
`nowTs`; `if (today <= due) return 0; return Math.floor(amount * (lateFeePercentage / 100));`. -/
def calculateLateFee (amount : Int) (dueDate : Nat) (lateFeePercentage : Rat)
    (nowTs : Nat) : Int :=
  if nowTs ≤ dueDate * minutesPerDay then 0
  else Int.floor ((amount : Rat) * (lateFeePercentage / 100))

/-- TS `calculateLateFee(due)` from the student-dues page (src/unnamed/part_006):
`if (today > dueDate && due.status === 'pending') return Math.floor(...); return 0;`. -/
def calculateLateFeeDue (d : Due) (nowTs : Nat) : Int :=
  if d.due_date * minutesPerDay < nowTs ∧ d.status = DueStatus.pending then
    Int.floor ((d.amount : Rat) * (d.late_fee_percentage / 100))
  else 0

/-- TS `calculateTotalAmount` from `PaymentDialog.tsx` (also duplicated in
`StudentPayments.tsx`): `if (today > dueDate && due.status !== 'paid') return due.amount + Math.floor(due.amount * (due.late_fee_percentage / 100)); return due.amount;`. -/
def calculateTotalAmount (d : Due) (nowTs : Nat) : Int :=
  if d.due_date * minutesPerDay < nowTs ∧ d.status ≠ DueStatus.paid then
    d.amount + Int.floor ((d.amount : Rat) * (d.late_fee_percentage / 100))
  else d.amount

/-- The row action of the client-side
`UPDATE student_dues SET status = 'paid' WHERE id = i` issued by
`handlePayment`; the `BEFORE UPDATE` trigger `update_updated_at_column`
bumps `updated_at` on the touched row. -/
def clientSetPaidRow (i : Nat) (now : Nat) (d : Due) : Due :=
  if d.id == i then { d with status := DueStatus.paid, updated_at := now } else d

/-- TS `handlePayment` from `PaymentDialog.tsx`: insert a payment of
`calculateTotalAmount(due)` for the due `i` (which fires the DB trigger
`update_due_status`), then unconditionally update the due's status to `paid`.
The due passed to the dialog is looked up in the current store. -/
def handlePayment (s : LedgerState) (i studentId : Nat) (nowTs : Nat) : LedgerState :=
  match s.dues.find? (fun d => d.id == i) with
  | none => s
  | some d =>
    let p : Payment :=
      { student_id := studentId, due_id := i,
        amount := calculateTotalAmount d nowTs, paid_at := nowTs }
    let payments' := s.payments ++ [p]
    let dues' := update_due_status s.dues payments' i (dayOfTs nowTs) nowTs
    { dues := dues'.map (clientSetPaidRow i nowTs), payments := payments' }

/-- Dates for the spec's Scenario A, encoded order-preservingly as day codes. -/
def date20250110 : Nat := 20098

/-- 2025-01-15 as a day code (five days after `date20250110`). -/
def date20250115 : Nat := 20103

/-- The due of the spec's Scenario A. -/
def scenarioADue : Due :=
  { id := 1, student_id := 10, amount := 50000, due_date := date20250110,
    late_fee_percentage := 5, status := DueStatus.pending, updated_at := 0 }

/-! ## Helper lemmas -/

theorem fee_floor_nonneg {a : Int} {p : Rat} (ha : 0 ≤ a) (hp : 0 ≤ p) :
    0 ≤ Int.floor ((a : Rat) * (p / 100)) := by
  apply Int.le_floor.mpr
  push_cast
  exact mul_nonneg (by exact_mod_cast ha) (div_nonneg hp (by norm_num))

theorem fee_floor_le {a : Int} {p : Rat} (ha : 0 ≤ a) (hp : p ≤ 100) :
    Int.floor ((a : Rat) * (p / 100)) ≤ a := by
  have h : (a : Rat) * (p / 100) ≤ (a : Rat) := by
    have ha' : (0 : Rat) ≤ (a : Rat) := by exact_mod_cast ha
    have : (a : Rat) * (p / 100) ≤ (a : Rat) * 1 := by
      apply mul_le_mul_of_nonneg_left _ ha'
      linarith
    simpa using this
  have := Int.floor_le_floor h
  simpa [Int.floor_intCast] using this

theorem sweepDue_idem (asOf n1 n2 : Nat) (d : Due) :
    sweepDue asOf n2 (sweepDue asOf n1 d) = sweepDue asOf n1 d := by
  unfold sweepDue
  by_cases h : d.due_date < asOf ∧ d.status = DueStatus.pending
  · rw [if_pos h, if_neg]
    simp
  · rw [if_neg h, if_neg h]

/-! ## Claim theorems -/

/-- C2: for every `baseAmount ≥ 0` and `lateFeePercentage ∈ [0,100]`, the
late-fee calculator returns 0 when `asOf ≤ dueDate` and
`floor(baseAmount * lateFeePercentage / 100)` when `asOf > dueDate`; the
result is an integer ≥ 0 and is 0 whenever the percentage is 0.  Covers the
SQL `calculate_late_fee` (date granularity) and the TS `calculateLateFee`
(timestamp against midnight of the due date). -/
theorem calculate_late_fee_spec (a : Int) (p : Rat) (dd asOf ts : Nat)
    (ha : 0 ≤ a) (hp0 : 0 ≤ p) (hp1 : p ≤ 100) :
    (asOf ≤ dd → calculate_late_fee a dd p asOf = 0) ∧
    (dd < asOf → calculate_late_fee a dd p asOf = Int.floor ((a : Rat) * p / 100)) ∧
    0 ≤ calculate_late_fee a dd p asOf ∧
    (p = 0 → calculate_late_fee a dd p asOf = 0) ∧
    (ts ≤ dd * minutesPerDay → calculateLateFee a dd p ts = 0) ∧
    (dd * minutesPerDay < ts →
      calculateLateFee a dd p ts = Int.floor ((a : Rat) * p / 100)) ∧
    0 ≤ calculateLateFee a dd p ts := by
  unfold calculate_late_fee calculateLateFee
  refine ⟨fun h => ?_, fun h => ?_, ?_, fun h => ?_, fun h => ?_, fun h => ?_, ?_⟩
  · rw [if_neg (by omega)]
  · rw [if_pos h, mul_div_assoc]
  · split
    · exact fee_floor_nonneg ha hp0
    · exact le_refl 0
  · subst h
    simp
  · rw [if_pos h]
  · rw [if_neg (by omega), mul_div_assoc]
  · split
    · exact le_refl 0
    · exact fee_floor_nonneg ha hp0

/-- Witness for `calculate_late_fee_spec` at amount 50000, 5 percent,
due day 10, evaluated at day 12 and at day 9. -/
theorem calculate_late_fee_spec_witness :
    calculate_late_fee 50000 10 5 12 = Int.floor ((50000 : Rat) * 5 / 100) ∧
    0 ≤ calculate_late_fee 50000 10 5 12 ∧
    calculate_late_fee 50000 10 5 9 = 0 := by
  have h1 := calculate_late_fee_spec 50000 5 10 12 0 (by norm_num) (by norm_num) (by norm_num)
  have h2 := calculate_late_fee_spec 50000 5 10 9 0 (by norm_num) (by norm_num) (by norm_num)
  exact ⟨h1.2.1 (by norm_num), h1.2.2.1, h2.1 (by norm_num)⟩

/-- C3 counterexample: timestamp 1 (one minute past midnight of day 0) has the
same calendar date as the due date (day 0), yet the TS `calculateLateFee`
charges a late fee of 2500 on an amount of 50000 at 5 percent — the claim
that a payment on the due date is on-time regardless of time of day fails for
the TS implementation, which compares full timestamps against midnight. -/
theorem calculateLateFee_charges_on_due_date :
    dayOfTs 1 = 0 ∧ calculateLateFee 50000 0 5 1 = 2500 := by
  constructor
  · rfl
  · norm_num [calculateLateFee, minutesPerDay]

/-- C3 (amended): the SQL `calculate_late_fee` is date-granular and treats a
payment on the due date as on-time (`asOf ≤ dueDate`, inclusive, returns 0);
the TS `calculateLateFee` and the student-dues page variant compare the
current instant against midnight of the due date, so they return 0 exactly
when the instant is at or before that midnight (inclusive at timestamp
granularity) and charge the fee later on the due date itself. -/
theorem due_date_comparison_inclusive (a : Int) (p : Rat) (dd asOf ts : Nat) (d : Due) :
    (asOf ≤ dd → calculate_late_fee a dd p asOf = 0) ∧
    (ts ≤ dd * minutesPerDay → calculateLateFee a dd p ts = 0) ∧
    (¬ d.due_date * minutesPerDay < ts → calculateLateFeeDue d ts = 0) := by
  refine ⟨fun h => ?_, fun h => ?_, fun h => ?_⟩
  · rw [calculate_late_fee, if_neg (by omega)]
  · rw [calculateLateFee, if_pos h]
  · rw [calculateLateFeeDue, if_neg (fun hc => h hc.1)]

/-- Witness for `due_date_comparison_inclusive`: day 5 at day 5 (SQL), and the
exact midnight of day 5 (TS). -/
theorem due_date_comparison_inclusive_witness :
    calculate_late_fee 50000 5 5 5 = 0 ∧ calculateLateFee 50000 5 5 (5 * 1440) = 0 := by
  have h := due_date_comparison_inclusive 50000 5 5 5 (5 * 1440) scenarioADue
  exact ⟨h.1 (by norm_num), h.2.1 (by norm_num [minutesPerDay])⟩

/-- C4: the overdue sweep is idempotent — running `mark_overdue_payments` a
second time with the same `asOf` immediately after a first run leaves the
state after the first run unchanged (no additional transitions). -/
theorem mark_overdue_payments_idempotent (asOf n1 n2 : Nat) (dues : List Due) :
    mark_overdue_payments asOf n2 (mark_overdue_payments asOf n1 dues) =
      mark_overdue_payments asOf n1 dues := by
  unfold mark_overdue_payments
  rw [List.map_map]
  have h : sweepDue asOf n2 ∘ sweepDue asOf n1 = sweepDue asOf n1 :=
    funext fun d => sweepDue_idem asOf n1 n2 d
  rw [h]

theorem setPaidRow_id (i n : Nat) (d : Due) : (setPaidRow i n d).id = d.id := by
  unfold setPaidRow
  split <;> rfl

theorem clientSetPaidRow_id (i n : Nat) (d : Due) : (clientSetPaidRow i n d).id = d.id := by
  unfold clientSetPaidRow
  split <;> rfl

theorem clientSetPaidRow_status (i n : Nat) (d : Due) (h : d.id = i) :
    (clientSetPaidRow i n d).status = DueStatus.paid := by
  unfold clientSetPaidRow
  rw [if_pos (by simp [h])]

/-- C5: `paid` is monotone — for a due whose status is `paid`, neither the
overdue sweep `mark_overdue_payments` nor the payment-triggered resolver
`update_due_status` changes its status back to `pending` or `overdue`, however
much time passes (`asOf`, `cd` arbitrary) and with no new payments required. -/
theorem paid_status_monotone (d : Due) (hpaid : d.status = DueStatus.paid)
    (asOf n i cd n2 : Nat) (dues : List Due) (payments : List Payment)
    (hd : d ∈ dues) :
    sweepDue asOf n d = d ∧
    (∃ d', d' ∈ mark_overdue_payments asOf n dues ∧ d'.id = d.id ∧
      d'.status = DueStatus.paid) ∧
    (∃ d', d' ∈ update_due_status dues payments i cd n2 ∧ d'.id = d.id ∧
      d'.status = DueStatus.paid) := by
  have hsweep : sweepDue asOf n d = d := by
    unfold sweepDue
    rw [if_neg (fun hc => by simp [hpaid] at hc)]
  refine ⟨hsweep, ⟨d, ?_, rfl, hpaid⟩, ?_⟩
  · unfold mark_overdue_payments
    have := List.mem_map_of_mem (sweepDue asOf n) hd
    rwa [hsweep] at this
  · unfold update_due_status
    split
    · refine ⟨setPaidRow i n2 d, List.mem_map_of_mem _ hd, setPaidRow_id i n2 d, ?_⟩
      unfold setPaidRow
      split
      · rfl
      · exact hpaid
    · exact ⟨d, hd, rfl, hpaid⟩

/-- A concrete due that is already `paid`. -/
def wPaidDue : Due :=
  { id := 2, student_id := 11, amount := 300, due_date := 4,
    late_fee_percentage := 5, status := DueStatus.paid, updated_at := 0 }

/-- Witness for `paid_status_monotone`: a paid due is untouched by a sweep at
a much later date. -/
theorem paid_status_monotone_witness : sweepDue 100 9 wPaidDue = wPaidDue := by
  exact (paid_status_monotone wPaidDue rfl 100 9 0 0 0 [wPaidDue] []
    (List.mem_singleton.mpr rfl)).1

/-- C6: frame property of the sweep — `mark_overdue_payments` is the
row-by-row map of `sweepDue`, which sets status to `overdue` exactly on dues
that are `pending` with `due_date < asOf`, and returns every other due
(in particular every `paid` or `failed` due, and every pending due whose
due date is on or after `asOf`) unchanged in all fields. -/
theorem sweep_frame (asOf n : Nat) (d : Due) (dues : List Due) :
    (¬ (d.status = DueStatus.pending ∧ d.due_date < asOf) → sweepDue asOf n d = d) ∧
    (d.status = DueStatus.pending → d.due_date < asOf →
      sweepDue asOf n d = { d with status := DueStatus.overdue, updated_at := n }) ∧
    (d.status = DueStatus.paid ∨ d.status = DueStatus.failed → sweepDue asOf n d = d) ∧
    mark_overdue_payments asOf n dues = dues.map (sweepDue asOf n) := by
  refine ⟨fun h => ?_, fun h1 h2 => ?_, fun h => ?_, rfl⟩
  · unfold sweepDue
    rw [if_neg (fun hc => h ⟨hc.2, hc.1⟩)]
  · unfold sweepDue
    rw [if_pos ⟨h2, h1⟩]
  · unfold sweepDue
    rw [if_neg]
    rcases h with h | h <;> simp [h]

/-- Witness for `sweep_frame`: a paid due and the Scenario A pending due. -/
theorem sweep_frame_witness :
    sweepDue 100 9 wPaidDue = wPaidDue ∧
    sweepDue date20250115 9 scenarioADue =
      { scenarioADue with status := DueStatus.overdue, updated_at := 9 } := by
  refine ⟨(sweep_frame 100 9 wPaidDue []).2.2.1 (Or.inl rfl), ?_⟩
  exact (sweep_frame date20250115 9 scenarioADue []).2.1 rfl
    (by norm_num [scenarioADue, date20250110, date20250115])

/-- C7: Scenario A — a due with base amount 50000, due date 2025-01-10, late
fee 5 percent, no payments, evaluated as of 2025-01-15: the late fee is
`floor(50000 * 5 / 100) = 2500`, the total owed is 52500, and running the
sweep with `asOf` = 2025-01-15 sets the due's status to `overdue`. -/
theorem scenarioA_correct :
    calculate_late_fee 50000 date20250110 5 date20250115 = 2500 ∧
    calculateLateFee 50000 date20250110 5 (date20250115 * minutesPerDay) = 2500 ∧
    totalOwedSql scenarioADue date20250115 = 52500 ∧
    mark_overdue_payments date20250115 777 [scenarioADue] =
      [{ scenarioADue with status := DueStatus.overdue, updated_at := 777 }] := by
  refine ⟨?_, ?_, ?_, ?_⟩
  · norm_num [calculate_late_fee, date20250110, date20250115]
  · norm_num [calculateLateFee, date20250110, date20250115, minutesPerDay]
  · norm_num [totalOwedSql, calculate_late_fee, scenarioADue, date20250110, date20250115]
  · norm_num [mark_overdue_payments, sweepDue, scenarioADue, date20250110, date20250115]

/-- C9: for `baseAmount ≥ 0` and `lateFeePercentage ∈ [0,100]`, the late fee
never exceeds the base amount, so the client-side total owed
(`calculateTotalAmount`) never exceeds twice the base amount. -/
theorem late_fee_bounded (a : Int) (p : Rat) (dd cd ts : Nat) (d : Due)
    (ha : 0 ≤ a) (hp1 : p ≤ 100)
    (hda : 0 ≤ d.amount) (hdp1 : d.late_fee_percentage ≤ 100) :
    calculateLateFee a dd p ts ≤ a ∧
    calculate_late_fee a dd p cd ≤ a ∧
    calculateTotalAmount d ts ≤ 2 * d.amount := by
  refine ⟨?_, ?_, ?_⟩
  · unfold calculateLateFee
    split
    · exact ha
    · exact fee_floor_le ha hp1
  · unfold calculate_late_fee
    split
    · exact fee_floor_le ha hp1
    · exact ha
  · unfold calculateTotalAmount
    split
    · have := fee_floor_le hda hdp1
      linarith
    · linarith

/-- Witness for `late_fee_bounded` at the Scenario A numbers. -/
theorem late_fee_bounded_witness :
    calculateLateFee 50000 date20250110 5 (date20250115 * minutesPerDay) ≤ 50000 ∧
    calculateTotalAmount scenarioADue (date20250115 * minutesPerDay) ≤ 2 * scenarioADue.amount := by
  have h := late_fee_bounded 50000 5 date20250110 date20250115
    (date20250115 * minutesPerDay) scenarioADue (by norm_num) (by norm_num)
    (by norm_num [scenarioADue]) (by norm_num [scenarioADue])
  exact ⟨h.1, h.2.2⟩

theorem setPaidRow_status_of_id (i n : Nat) (d : Due) (h : d.id = i) :
    (setPaidRow i n d).status = DueStatus.paid := by
  unfold setPaidRow
  rw [if_pos (by simp [h])]

/-- C10: the payment trigger `update_due_status` decides `paid` solely from
the payment sum reaching the due's amount plus late fee: when the sum
suffices it maps every row with the payment's due id to `paid` — whatever
status (`pending`, `overdue`, `failed`) the row had; when the sum is
insufficient it returns the table completely unchanged; and its condition
`dueOwedCheck` is invariant under rewriting the due's current status. -/
theorem update_due_status_spec (dues : List Due) (payments : List Payment)
    (i cd n : Nat) :
    (dueOwedCheck dues payments i cd = true →
      update_due_status dues payments i cd n = dues.map (setPaidRow i n) ∧
      ∀ d ∈ dues, d.id = i → (setPaidRow i n d).status = DueStatus.paid) ∧
    (dueOwedCheck dues payments i cd = false →
      update_due_status dues payments i cd n = dues) ∧
    (∀ st : DueStatus,
      dueOwedCheck
          (dues.map fun d => if d.id == i then { d with status := st } else d)
          payments i cd =
        dueOwedCheck dues payments i cd) := by
  refine ⟨fun h => ⟨?_, fun d _ hid => setPaidRow_status_of_id i n d hid⟩, fun h => ?_, fun st => ?_⟩
  · unfold update_due_status
    rw [if_pos h]
  · unfold update_due_status
    rw [if_neg (by simp [h])]
  · unfold dueOwedCheck
    rw [List.find?_map]
    have hg : ((fun d : Due => d.id == i) ∘
        fun d : Due => if d.id == i then { d with status := st } else d) =
        fun d : Due => d.id == i := by
      funext d
      by_cases h : d.id == i <;> simp [Function.comp, h]
    rw [hg]
    cases hf : dues.find? (fun d => d.id == i) with
    | none => rfl
    | some e =>
      simp only [Option.map_some']
      have howed : totalOwedSql (if e.id == i then { e with status := st } else e) cd =
          totalOwedSql e cd := by
        by_cases he : e.id == i <;> simp [totalOwedSql, he]
      rw [howed]

/-- A concrete overdue due owed 100 (no late fee at day 0). -/
def wOverdueDue : Due :=
  { id := 3, student_id := 12, amount := 100, due_date := 5,
    late_fee_percentage := 5, status := DueStatus.overdue, updated_at := 0 }

/-- Witness for `update_due_status_spec`: with no payments the sum 0 is below
the 100 owed, and the trigger leaves the table unchanged. -/
theorem update_due_status_spec_witness :
    update_due_status [wOverdueDue] [] 3 0 9 = [wOverdueDue] := by
  exact (update_due_status_spec [wOverdueDue] [] 3 0 9).2.1 (by rfl)

theorem paidSum_append (ps qs : List Payment) (i : Nat) :
    paidSum (ps ++ qs) i = paidSum ps i + paidSum qs i := by
  unfold paidSum
  rw [List.filter_append, List.map_append, List.sum_append]

theorem paidSum_nonneg (ps : List Payment) (i : Nat)
    (h : ∀ p ∈ ps, 0 ≤ p.amount) : 0 ≤ paidSum ps i := by
  unfold paidSum
  apply List.sum_nonneg
  intro x hx
  simp only [List.mem_map] at hx
  obtain ⟨q, hq, rfl⟩ := hx
  exact h q (List.mem_of_mem_filter hq)

/-- If the SQL `CURRENT_DATE` is strictly past the due date, the current
instant is strictly past midnight of the due date. -/
theorem midnight_lt_of_day_lt {dd : Nat} {nowTs : Nat} (h : dd < dayOfTs nowTs) :
    dd * minutesPerDay < nowTs := by
  have h2 : dd + 1 ≤ nowTs / minutesPerDay := h
  have h3 : (dd + 1) * minutesPerDay ≤ nowTs :=
    (Nat.le_div_iff_mul_le (by norm_num [minutesPerDay])).mp h2
  have h4 : dd * minutesPerDay < (dd + 1) * minutesPerDay := by
    have h0 : (0 : Nat) < minutesPerDay := by norm_num [minutesPerDay]
    exact (Nat.mul_lt_mul_right h0).mpr (Nat.lt_succ_self dd)
  exact lt_of_lt_of_le h4 h3

/-- The client-side total `calculateTotalAmount` covers the server-side total
`totalOwedSql` at the calendar date of the payment instant, for any not-paid
due with nonnegative amount and percentage. -/
theorem client_total_covers (d : Due) (nowTs : Nat)
    (hnp : d.status ≠ DueStatus.paid)
    (ha : 0 ≤ d.amount) (hp : 0 ≤ d.late_fee_percentage) :
    totalOwedSql d (dayOfTs nowTs) ≤ calculateTotalAmount d nowTs := by
  unfold totalOwedSql calculate_late_fee calculateTotalAmount
  by_cases h1 : d.due_date < dayOfTs nowTs
  · rw [if_pos h1, if_pos ⟨midnight_lt_of_day_lt h1, hnp⟩]
  · rw [if_neg h1]
    by_cases h2 : d.due_date * minutesPerDay < nowTs ∧ d.status ≠ DueStatus.paid
    · rw [if_pos h2]
      have := fee_floor_nonneg ha hp
      linarith
    · rw [if_neg h2]
      linarith

/-- C1: a due's status becomes `paid` only when the payment sum reaches the
total owed at that moment.  (a) The DB trigger `update_due_status` changes the
table only when the payment sum for the inserted payment's due reaches
`totalOwedSql`; in particular it never sets `paid` while the sum is below the
total owed.  (b) The client-side `handlePayment`, although it updates the
status to `paid` unconditionally, first inserts a payment of the full
client-computed total, so the due it marks `paid` satisfies the
reconciliation inequality `totalOwedSql ≤ paidSum` at the payment date. -/
theorem paid_only_when_covered
    (dues : List Due) (payments : List Payment) (i cd n : Nat)
    (s : LedgerState) (j sid nowTs : Nat) (d : Due)
    (hfind : s.dues.find? (fun x => x.id == j) = some d)
    (hnp : d.status ≠ DueStatus.paid)
    (ha : 0 ≤ d.amount) (hp : 0 ≤ d.late_fee_percentage)
    (hpay : ∀ p ∈ s.payments, 0 ≤ p.amount) :
    (update_due_status dues payments i cd n ≠ dues →
      ∃ e, dues.find? (fun x => x.id == i) = some e ∧
        totalOwedSql e cd ≤ paidSum payments i) ∧
    totalOwedSql d (dayOfTs nowTs) ≤ paidSum (handlePayment s j sid nowTs).payments j ∧
    (∃ d', d' ∈ (handlePayment s j sid nowTs).dues ∧ d'.id = d.id ∧
      d'.status = DueStatus.paid) := by
  have hdmem : d ∈ s.dues := List.mem_of_find?_eq_some hfind
  have hdid : d.id = j := by
    have := List.find?_some hfind
    simpa using this
  refine ⟨fun hne => ?_, ?_, ?_⟩
  · by_cases hc : dueOwedCheck dues payments i cd = true
    · unfold dueOwedCheck at hc
      cases hf : dues.find? (fun x => x.id == i) with
      | none => rw [hf] at hc; cases hc
      | some e =>
        rw [hf] at hc
        exact ⟨e, rfl, by simpa using hc⟩
    · exfalso
      apply hne
      unfold update_due_status
      rw [if_neg (by simpa using hc)]
  · unfold handlePayment
    rw [hfind]
    simp only [paidSum_append]
    have h1 : paidSum [⟨sid, j, calculateTotalAmount d nowTs, nowTs⟩] j =
        calculateTotalAmount d nowTs := by
      simp [paidSum]
    rw [h1]
    have h2 := client_total_covers d nowTs hnp ha hp
    have h3 := paidSum_nonneg s.payments j hpay
    linarith
  · unfold handlePayment
    rw [hfind]
    simp only []
    unfold update_due_status
    split
    · refine ⟨clientSetPaidRow j nowTs (setPaidRow j nowTs d), ?_, ?_, ?_⟩
      · exact List.mem_map_of_mem _ (List.mem_map_of_mem _ hdmem)
      · rw [clientSetPaidRow_id, setPaidRow_id]
      · exact clientSetPaidRow_status j nowTs _ (by rw [setPaidRow_id]; exact hdid)
    · refine ⟨clientSetPaidRow j nowTs d, List.mem_map_of_mem _ hdmem, ?_, ?_⟩
      · rw [clientSetPaidRow_id]
      · exact clientSetPaidRow_status j nowTs d hdid

/-- A concrete pending due owed 100 at day 5 and an empty payment table. -/
def wPendingDue : Due :=
  { id := 1, student_id := 7, amount := 100, due_date := 5,
    late_fee_percentage := 5, status := DueStatus.pending, updated_at := 0 }

/-- The store holding only `wPendingDue`. -/
def wState : LedgerState := { dues := [wPendingDue], payments := [] }

/-- Witness for `paid_only_when_covered`: paying `wPendingDue` through the
dialog at instant 99 (day 0) leaves the payment sum at or above the total
owed. -/
theorem paid_only_when_covered_witness :
    totalOwedSql wPendingDue (dayOfTs 99) ≤
      paidSum (handlePayment wState 1 7 99).payments 1 := by
  have h := paid_only_when_covered [] [] 0 0 0 wState 1 7 99 wPendingDue rfl
    (by decide) (by norm_num [wPendingDue]) (by norm_num [wPendingDue])
    (by intro p hp; cases hp)
  exact h.2.1

end ProfStudentHub
